import Mathlib

/-!
# news-feed-bot: the source storage and the lookback wiring

A shallow embedding of `internal/storage/source.go` (the five methods of
`SourcePostgresStorage`) and of the lookback argument that `cmd/main.go`
passes to the notifier.

The Go methods are thin wrappers around four calls of the `sqlx` handle
(`SelectContext`, `GetContext`, `QueryRowxContext`, `ExecContext`), each with
a fixed SQL statement.  The database is modelled as explicit state (`DB`): the
rows of the two tables plus the foreign-key action of the schema.  Every call
of the handle takes a `fault : Option Error`, the error with which the
database or the driver refuses the statement (connection loss, cancelled
context, a constraint this model does not know of); a refused statement is not
applied.  `fault = none` is a database that executes the statement.

Go values: `int64` and `int` are `Int` (the storage code does no arithmetic
on them), `time.Time` is an `Int` instant, `time.Duration` is an `Int`
wrapped to 64 bits where it is multiplied, a `nil` slice or pointer is
`none`, a `nil` error is `none`.
-/

namespace NewsFeedBot

/-! ## Data model -/

/-- A `time.Time` instant. -/
abbrev Time := Int

/-- Errors the storage layer can hand back.  `ErrNoRows` is `sql.ErrNoRows`;
`UniqueViolation` and `ForeignKeyViolation` are the two constraint errors of
the server that the model raises itself; `Other` is any other error. -/
inductive Error where
  | ErrNoRows
  | UniqueViolation
  | ForeignKeyViolation
  | Other (code : Nat)
deriving DecidableEq, Repr

/-- The record `model.Source`, with the five fields that `source.go` fills. -/
structure Source where
  ID : Int
  Name : String
  FeedURL : String
  Priority : Int
  CreatedAt : Time
deriving DecidableEq, Repr

/-- The struct `dbSource` of `source.go`: one row of table `sources`. -/
structure dbSource where
  ID : Int
  Name : String
  FeedURL : String
  Priority : Int
  CreatedAt : Time
deriving DecidableEq, Repr

/-- Modelled from the spec: the row type of table `articles`, whose
declaration (the migration and the article storage) is not among the sources.
The columns are those of the persisted layout
`articles(id, source_id, title, link, summary, published_at, created_at, posted_at)`. -/
structure dbArticle where
  ID : Int
  SourceID : Int
  Title : String
  Link : String
  Summary : Option String
  PublishedAt : Time
  CreatedAt : Time
  PostedAt : Option Time
deriving DecidableEq, Repr

/-- Modelled from the spec: what the schema does with the articles of a
deleted source.  The migration is not among the sources; the spec leaves the
store the choice between cascading and rejecting the deletion. -/
inductive FKAction where
  | cascade
  | restrict
deriving DecidableEq, Repr

/-- The database behind the `sqlx` handle: the rows of `sources` in the order
a full scan returns them, the rows of `articles`, and the foreign-key action
of `articles.source_id`. -/
structure DB where
  sources : List dbSource
  articles : List dbArticle
  onDelete : FKAction
deriving DecidableEq, Repr

/-! ## The calls of the `sqlx` handle -/

/-- The call `lo.Map`: the result has one element per input element, the
image of the element and its index. -/
def loMapFrom {α β : Type} (iteratee : α → Nat → β) : Nat → List α → List β
  | _, [] => []
  | i, x :: xs => iteratee x i :: loMapFrom iteratee (i + 1) xs

/-- The call `lo.Map(collection, iteratee)`. -/
def loMap {α β : Type} (collection : List α) (iteratee : α → Nat → β) : List β :=
  loMapFrom iteratee 0 collection

/-- The call `SelectContext(ctx, &sources, "SELECT * FROM sources")`: every row. -/
def SelectContext (db : DB) (fault : Option Error) : Except Error (List dbSource) :=
  match fault with
  | some e => .error e
  | none => .ok db.sources

/-- The call `GetContext(ctx, &source, "SELECT * FROM sources WHERE id = $1", id)`: the
first row of the result set, `sql.ErrNoRows` when the result set is empty. -/
def GetContext (db : DB) (fault : Option Error) (id : Int) : Except Error dbSource :=
  match fault with
  | some e => .error e
  | none =>
    match db.sources.find? (fun r => decide (r.ID = id)) with
    | none => .error Error.ErrNoRows
    | some r => .ok r

/-- The value `*sqlx.Row` that `QueryRowxContext` returns: the error of the
query, if any, the `id` column of the rows that could be read, and the error
that reading the rows met, if any. -/
structure Row where
  err : Option Error
  ids : List Int
  rowsErr : Option Error
deriving DecidableEq, Repr

/-- The method `row.Err()`. -/
def Row.Err (row : Row) : Option Error := row.err

/-- The method `row.Scan(&id)`: the error of the query if it has one; with no
row to read, the error of reading the rows or else `sql.ErrNoRows`; else the
first row's column. -/
def Row.Scan (row : Row) : Except Error Int :=
  match row.err with
  | some e => .error e
  | none =>
    match row.ids with
    | [] =>
      match row.rowsErr with
      | some e => .error e
      | none => .error Error.ErrNoRows
    | v :: _ => .ok v

/-- The predicate: some row of `sources` has this id. -/
def hasSource (db : DB) (id : Int) : Bool :=
  db.sources.any (fun r => decide (r.ID = id))

/-- Modelled from the spec: the key of table `sources`, whose declaration (the
migration) is not among the sources.  A source is identified by its id
(`sourceByID(id) -> Source | NotFound`), so a new row whose id some row
already has violates the key. -/
def violatesSourcesKey (db : DB) (id : Int) : Bool := hasSource db id

/-- The call `QueryRowxContext(ctx, "INSERT INTO sources (name, feed_url,
priority) VALUES ($1, $2, $3) RETURNING id;", name, feedURL, priority)`.

The statement names three columns, so `id` and `created_at` get the values
that the defaults of the table produce; these are the inputs `genID` and
`now`.  A row that violates the key of the table is rejected with a unique
violation.  `fault` refuses the statement; `readFault` is an error met when
the returned row is read, after the statement was applied. -/
def QueryRowxContext (db : DB) (fault readFault : Option Error) (genID : Int) (now : Time)
    (name feedURL : String) (priority : Int) : Row × DB :=
  match fault with
  | some e => ({ err := some e, ids := [], rowsErr := none }, db)
  | none =>
    if violatesSourcesKey db genID then
      ({ err := some Error.UniqueViolation, ids := [], rowsErr := none }, db)
    else
      let inserted : dbSource :=
        { ID := genID, Name := name, FeedURL := feedURL, Priority := priority,
          CreatedAt := now }
      let after : DB := { db with sources := db.sources ++ [inserted] }
      match readFault with
      | some e => ({ err := none, ids := [], rowsErr := some e }, after)
      | none => ({ err := none, ids := [genID], rowsErr := none }, after)

/-- The call `ExecContext(ctx, "UPDATE sources SET priority = $1 WHERE id = $2",
priority, id)`: the error alone, as the code drops the `sql.Result`. -/
def ExecContextUpdate (db : DB) (fault : Option Error) (priority : Int) (id : Int) :
    Option Error × DB :=
  match fault with
  | some e => (some e, db)
  | none =>
    let updated := db.sources.map
      (fun r => if r.ID = id then { r with Priority := priority } else r)
    (none, { db with sources := updated })

/-- The call `ExecContext(ctx, "DELETE FROM sources WHERE id = $1", id)`: the
error alone, as the code drops the `sql.Result`.  The rows with this id go.
When rows go and articles refer to them, the foreign key of the schema acts
(`FKAction`, modelled from the spec): a cascading schema deletes those
articles and a restricting schema rejects the statement. -/
def ExecContextDelete (db : DB) (fault : Option Error) (id : Int) : Option Error × DB :=
  match fault with
  | some e => (some e, db)
  | none =>
    let referenced := hasSource db id && db.articles.any (fun a => decide (a.SourceID = id))
    let kept := db.sources.filter (fun r => !decide (r.ID = id))
    match db.onDelete with
    | FKAction.cascade =>
      let left := if referenced then db.articles.filter (fun a => !decide (a.SourceID = id))
                  else db.articles
      (none, { db with sources := kept, articles := left })
    | FKAction.restrict =>
      if referenced then (some Error.ForeignKeyViolation, db)
      else (none, { db with sources := kept })

/-! ## `SourcePostgresStorage` -/

/-- The method `Sources` of `source.go`. -/
def Sources (db : DB) (fault : Option Error) : Option (List Source) × Option Error :=
  match SelectContext db fault with
  | .error err => (none, some err)
  | .ok sources =>
    (some (loMap sources (fun source _ =>
      { ID := source.ID, Name := source.Name, FeedURL := source.FeedURL,
        Priority := source.Priority, CreatedAt := source.CreatedAt })), none)

/-- The method `SourceByID` of `source.go`. -/
def SourceByID (db : DB) (fault : Option Error) (id : Int) : Option Source × Option Error :=
  match GetContext db fault id with
  | .error err => (none, some err)
  | .ok source =>
    (some { ID := source.ID, Name := source.Name, FeedURL := source.FeedURL,
            Priority := source.Priority, CreatedAt := source.CreatedAt }, none)

/-- The method `Add` of `source.go`: the returned id and error, and the
database after the call. -/
def Add (db : DB) (fault readFault : Option Error) (genID : Int) (now : Time)
    (source : Source) : (Int × Option Error) × DB :=
  let q := QueryRowxContext db fault readFault genID now
    source.Name source.FeedURL source.Priority
  match q.1.Err with
  | some err => ((0, some err), q.2)
  | none =>
    match q.1.Scan with
    | .error err => ((0, some err), q.2)
    | .ok id => ((id, none), q.2)

/-- The method `SetPriority` of `source.go`. -/
def SetPriority (db : DB) (fault : Option Error) (id : Int) (priority : Int) :
    Option Error × DB :=
  ExecContextUpdate db fault priority id

/-- The method `Delete` of `source.go`. -/
def Delete (db : DB) (fault : Option Error) (id : Int) : Option Error × DB :=
  ExecContextDelete db fault id

/-! ## The lookback wiring of `main` -/

/-- An integer wrapped to the range of `int64`, as Go's arithmetic on
`time.Duration` does. -/
def wrapInt64 (x : Int) : Int := (x + 2 ^ 63) % 2 ^ 64 - 2 ^ 63

/-- The largest `int64`. -/
def maxInt64 : Int := 2 ^ 63 - 1

/-- The fifth argument of `notifier.New` in `main`:
`2*config.Get().FetchInterval`. -/
def lookback (fetchInterval : Int) : Int := wrapInt64 (2 * fetchInterval)

/-! ## Store predicates -/

/-- The row as the storage hands it out. -/
def dbSource.toSource (r : dbSource) : Source :=
  { ID := r.ID, Name := r.Name, FeedURL := r.FeedURL, Priority := r.Priority,
    CreatedAt := r.CreatedAt }

/-- No two rows of `sources` share an id. -/
def uniqueIDs (db : DB) : Prop := (db.sources.map (fun r => r.ID)).Nodup

/-- Every article's `source_id` is the id of a row of `sources`. -/
def articlesReferenced (db : DB) : Prop :=
  ∀ a ∈ db.articles, ∃ r ∈ db.sources, r.ID = a.SourceID

instance instDecidableUniqueIDs (db : DB) : Decidable (uniqueIDs db) := by
  unfold uniqueIDs
  infer_instance

instance instDecidableArticlesReferenced (db : DB) : Decidable (articlesReferenced db) := by
  unfold articlesReferenced
  infer_instance

/-! ## Example stores -/

/-- A store with two sources and one article of the first. -/
def exampleDB : DB :=
  { sources :=
      [{ ID := 1, Name := "alpha", FeedURL := "http://a/feed", Priority := 10, CreatedAt := 100 },
       { ID := 2, Name := "beta", FeedURL := "http://b/feed", Priority := 5, CreatedAt := 200 }],
    articles :=
      [{ ID := 7, SourceID := 1, Title := "t", Link := "http://a/1", Summary := none,
         PublishedAt := 150, CreatedAt := 160, PostedAt := none }],
    onDelete := FKAction.cascade }

/-- The same store under a schema that rejects the deletion of a referenced source. -/
def exampleRestrictDB : DB := { exampleDB with onDelete := FKAction.restrict }

/-- The example store after source 2 got the priority 9. -/
def exampleAfterSetPriority : DB :=
  { exampleDB with sources :=
      [{ ID := 1, Name := "alpha", FeedURL := "http://a/feed", Priority := 10, CreatedAt := 100 },
       { ID := 2, Name := "beta", FeedURL := "http://b/feed", Priority := 9, CreatedAt := 200 }] }

/-- A source to add: the storage reads its name, feed URL and priority. -/
def exampleSource : Source :=
  { ID := 0, Name := "gamma", FeedURL := "http://c/feed", Priority := 7, CreatedAt := 0 }

/-- The example store after `exampleSource` was added under the id 3 at the instant 300. -/
def exampleAfterAdd : DB :=
  { exampleDB with sources :=
      [{ ID := 1, Name := "alpha", FeedURL := "http://a/feed", Priority := 10, CreatedAt := 100 },
       { ID := 2, Name := "beta", FeedURL := "http://b/feed", Priority := 5, CreatedAt := 200 },
       { ID := 3, Name := "gamma", FeedURL := "http://c/feed", Priority := 7, CreatedAt := 300 }] }

/-- The cascading example store after source 1 was deleted. -/
def exampleAfterDelete : DB :=
  { sources :=
      [{ ID := 2, Name := "beta", FeedURL := "http://b/feed", Priority := 5, CreatedAt := 200 }],
    articles := [],
    onDelete := FKAction.cascade }

/-! ## Lemmas on the calls -/

theorem loMapFrom_const_index {α β : Type} (f : α → β) (xs : List α) (i : Nat) :
    loMapFrom (fun x _ => f x) i xs = xs.map f := by
  induction xs generalizing i with
  | nil => rfl
  | cons x xs ih => simp [loMapFrom, ih]

theorem Sources_none (db : DB) :
    Sources db none = (some (db.sources.map dbSource.toSource), none) := by
  simp only [Sources, SelectContext, loMap]
  rw [loMapFrom_const_index]
  rfl

theorem SourceByID_none (db : DB) (id : Int) :
    SourceByID db none id =
      match db.sources.find? (fun r => decide (r.ID = id)) with
      | none => (none, some Error.ErrNoRows)
      | some r => (some r.toSource, none) := by
  simp only [SourceByID, GetContext]
  cases db.sources.find? (fun r => decide (r.ID = id)) <;> rfl

theorem find_unique_id (rows : List dbSource) (id : Int) (r : dbSource)
    (hu : (rows.map (fun r => r.ID)).Nodup) (hr : r ∈ rows) (hid : r.ID = id) :
    rows.find? (fun r => decide (r.ID = id)) = some r := by
  induction rows with
  | nil => cases hr
  | cons x xs ih =>
    rw [List.map_cons, List.nodup_cons] at hu
    rcases List.mem_cons.mp hr with h | h
    · subst h
      simp [List.find?, hid]
    · have hx : x.ID ≠ id := by
        intro hx
        apply hu.1
        rw [hx, ← hid]
        exact List.mem_map_of_mem (fun r => r.ID) h
      simp only [List.find?, hx, decide_False]
      exact ih hu.2 h

theorem find_after_update (rows : List dbSource) (id j p : Int) :
    (rows.map (fun r => if r.ID = id then { r with Priority := p } else r)).find?
        (fun r => decide (r.ID = j)) =
      (rows.find? (fun r => decide (r.ID = j))).map
        (fun r => if r.ID = id then { r with Priority := p } else r) := by
  rw [List.find?_map]
  have hcomp : ((fun r : dbSource => decide (r.ID = j)) ∘
      fun r : dbSource => if r.ID = id then { r with Priority := p } else r) =
      fun r : dbSource => decide (r.ID = j) := by
    funext r
    by_cases hr : r.ID = id
    · simp only [Function.comp, hr, if_true]
    · simp only [Function.comp, hr, if_false]
  rw [hcomp]

theorem ids_after_update (rows : List dbSource) (id p : Int) :
    (rows.map (fun r => if r.ID = id then { r with Priority := p } else r)).map
        (fun r => r.ID) = rows.map (fun r => r.ID) := by
  induction rows with
  | nil => rfl
  | cons x xs ih =>
    by_cases hx : x.ID = id
    · simp only [List.map_cons, hx, if_true, ih]
    · simp only [List.map_cons, hx, if_false, ih]

theorem update_absent (rows : List dbSource) (id p : Int) (habs : ∀ r ∈ rows, r.ID ≠ id) :
    rows.map (fun r => if r.ID = id then { r with Priority := p } else r) = rows := by
  induction rows with
  | nil => rfl
  | cons x xs ih =>
    have hx : x.ID ≠ id := habs x (List.mem_cons_self x xs)
    have hxs : ∀ r ∈ xs, r.ID ≠ id := fun r hr => habs r (List.mem_cons_of_mem x hr)
    simp only [List.map_cons, hx, if_false, ih hxs]

theorem filter_absent (rows : List dbSource) (id : Int) (habs : ∀ r ∈ rows, r.ID ≠ id) :
    rows.filter (fun r => !decide (r.ID = id)) = rows := by
  apply List.filter_eq_self.mpr
  intro r hr
  simp [habs r hr]

theorem find_after_delete_same (rows : List dbSource) (id : Int) :
    (rows.filter (fun r => !decide (r.ID = id))).find? (fun r => decide (r.ID = id)) = none := by
  apply List.find?_eq_none.mpr
  intro r hr
  have := (List.mem_filter.mp hr).2
  simpa using this

theorem find_after_delete_other (rows : List dbSource) (id j : Int) (hj : j ≠ id) :
    (rows.filter (fun r => !decide (r.ID = id))).find? (fun r => decide (r.ID = j)) =
      rows.find? (fun r => decide (r.ID = j)) := by
  rw [List.find?_filter]
  congr 1
  funext r
  by_cases hr : r.ID = j
  · simp [hr, hj]
  · simp [hr]

theorem hasSource_false_iff (db : DB) (id : Int) :
    hasSource db id = false ↔ ∀ r ∈ db.sources, r.ID ≠ id := by
  simp [hasSource]

theorem hasSource_true_iff (db : DB) (id : Int) :
    hasSource db id = true ↔ ∃ r ∈ db.sources, r.ID = id := by
  simp [hasSource]

/-- What a call of `SetPriority` that returns no error did. -/
theorem SetPriority_ok (db db' : DB) (fault : Option Error) (id p : Int)
    (hok : SetPriority db fault id p = (none, db')) :
    db' = { db with sources :=
      db.sources.map (fun r => if r.ID = id then { r with Priority := p } else r) } := by
  cases fault with
  | some e => simp [SetPriority, ExecContextUpdate] at hok
  | none =>
    simp only [SetPriority, ExecContextUpdate, Prod.mk.injEq, true_and] at hok
    exact hok.symm

/-- What a call of `Delete` that returns no error did to table `sources`. -/
theorem Delete_ok_sources (db db' : DB) (fault : Option Error) (id : Int)
    (hok : Delete db fault id = (none, db')) :
    db'.sources = db.sources.filter (fun r => !decide (r.ID = id)) := by
  cases fault with
  | some e => simp [Delete, ExecContextDelete] at hok
  | none =>
    cases hfk : db.onDelete with
    | cascade =>
      simp only [Delete, ExecContextDelete, hfk, Prod.mk.injEq, true_and] at hok
      rw [← hok]
    | restrict =>
      simp only [Delete, ExecContextDelete, hfk] at hok
      split at hok
      · simp at hok
      · simp only [Prod.mk.injEq, true_and] at hok
        rw [← hok]

/-- What a call of `Add` that returns no error did. -/
theorem Add_ok (db db' : DB) (fault readFault : Option Error) (genID : Int) (now : Time)
    (s : Source) (id : Int) (hok : Add db fault readFault genID now s = ((id, none), db')) :
    id = genID ∧ hasSource db genID = false ∧
      db'.sources = db.sources ++
        [{ ID := genID, Name := s.Name, FeedURL := s.FeedURL, Priority := s.Priority,
           CreatedAt := now }] := by
  cases fault with
  | some e => simp [Add, QueryRowxContext, Row.Err] at hok
  | none =>
    cases hh : hasSource db genID with
    | true => simp [Add, QueryRowxContext, violatesSourcesKey, Row.Err, hh] at hok
    | false =>
      cases readFault with
      | some e =>
        simp [Add, QueryRowxContext, violatesSourcesKey, Row.Err, Row.Scan, hh] at hok
      | none =>
        simp only [Add, QueryRowxContext, violatesSourcesKey, Row.Err, Row.Scan, hh,
          Prod.mk.injEq,
          and_true] at hok
        simp at hok
        refine ⟨hok.1.symm, rfl, ?_⟩
        rw [← hok.2]

theorem unreferenced_articles (db : DB) (id : Int) (hinv : articlesReferenced db)
    (href : (hasSource db id && db.articles.any (fun a => decide (a.SourceID = id))) = false) :
    ∀ a ∈ db.articles, a.SourceID ≠ id := by
  intro a ha hid
  obtain ⟨r, hr, hrid⟩ := hinv a ha
  have h1 : hasSource db id = true := (hasSource_true_iff db id).mpr ⟨r, hr, hrid.trans hid⟩
  have h2 : db.articles.any (fun a => decide (a.SourceID = id)) = true :=
    List.any_eq_true.mpr ⟨a, ha, by simp [hid]⟩
  rw [h1, h2] at href
  exact absurd href (by decide)

theorem kept_sources_cover (db : DB) (id : Int) (arts : List dbArticle)
    (hinv : articlesReferenced db) (hsub : ∀ a ∈ arts, a ∈ db.articles)
    (hne : ∀ a ∈ arts, a.SourceID ≠ id) :
    ∀ a ∈ arts,
      ∃ r ∈ db.sources.filter (fun r => !decide (r.ID = id)), r.ID = a.SourceID := by
  intro a ha
  obtain ⟨r, hr, hrid⟩ := hinv a (hsub a ha)
  refine ⟨r, List.mem_filter.mpr ⟨hr, ?_⟩, hrid⟩
  have : r.ID ≠ id := fun h => hne a ha (hrid.symm.trans h)
  simp [this]

theorem kept_sources_other (rows : List dbSource) (id : Int) :
    ∀ r ∈ rows.filter (fun r => !decide (r.ID = id)), r.ID ≠ id := by
  intro r hr
  simpa using (List.mem_filter.mp hr).2

/-! ## Theorems -/

/-- C1: against a database that executes the query, `SourceByID` on an id
that some row has returns no error and the columns of a row with that id, so
the returned ID is the requested id; when no two rows share an id the result
is the columns of every row with that id, that is of the one row; on an id
that no row has it returns a nil source and `sql.ErrNoRows`. -/
theorem SourceByID_found_or_not_found (db : DB) (id : Int) :
    ((∃ r ∈ db.sources, r.ID = id) →
      ∃ r ∈ db.sources, r.ID = id ∧
        SourceByID db none id =
          (some { ID := id, Name := r.Name, FeedURL := r.FeedURL, Priority := r.Priority,
                  CreatedAt := r.CreatedAt }, none)) ∧
    (uniqueIDs db → ∀ r ∈ db.sources, r.ID = id →
        SourceByID db none id =
          (some { ID := r.ID, Name := r.Name, FeedURL := r.FeedURL, Priority := r.Priority,
                  CreatedAt := r.CreatedAt }, none)) ∧
    ((∀ r ∈ db.sources, r.ID ≠ id) →
      SourceByID db none id = (none, some Error.ErrNoRows)) := by
  refine ⟨?_, ?_, ?_⟩
  · rintro ⟨r0, hr0, hid0⟩
    rw [SourceByID_none]
    cases hf : db.sources.find? (fun r => decide (r.ID = id)) with
    | none =>
      have := List.find?_eq_none.mp hf r0 hr0
      simp [hid0] at this
    | some r =>
      have hmem := List.mem_of_find?_eq_some hf
      have hp := List.find?_some hf
      have hid : r.ID = id := by simpa using hp
      exact ⟨r, hmem, hid, by simp [dbSource.toSource, hid]⟩
  · intro hu r hr hid
    rw [SourceByID_none, find_unique_id db.sources id r hu hr hid]
    rfl
  · intro hno
    rw [SourceByID_none]
    have : db.sources.find? (fun r => decide (r.ID = id)) = none := by
      apply List.find?_eq_none.mpr
      intro x hx
      simpa using hno x hx
    rw [this]

/-- C1, on the example store, whose ids are unique: id 2 is found with its
columns, id 3 is not found. -/
theorem SourceByID_found_or_not_found_witness :
    uniqueIDs exampleDB ∧
    SourceByID exampleDB none 2 =
        (some { ID := 2, Name := "beta", FeedURL := "http://b/feed", Priority := 5,
                CreatedAt := 200 }, none) ∧
    (∀ r ∈ exampleDB.sources, r.ID ≠ 3) ∧
    SourceByID exampleDB none 3 = (none, some Error.ErrNoRows) :=
  ⟨by decide,
   (SourceByID_found_or_not_found exampleDB 2).2.1 (by decide)
      { ID := 2, Name := "beta", FeedURL := "http://b/feed", Priority := 5, CreatedAt := 200 }
      (by simp [exampleDB]) rfl,
   by decide,
   (SourceByID_found_or_not_found exampleDB 3).2.2 (by decide)⟩

/-- C2: when the query succeeds, `Sources` returns no error and a list with
one element per row of `sources`, in the order of the rows, whose i-th element
has the id, name, feed_url, priority and created_at of the i-th row; on an
empty table the list is empty. -/
theorem Sources_lists_rows (db : DB) (fault : Option Error) (rows : List dbSource)
    (hq : SelectContext db fault = Except.ok rows) :
    ∃ l : List Source, Sources db fault = (some l, none) ∧
      rows = db.sources ∧
      l.length = db.sources.length ∧
      (∀ (i : Nat) (h1 : i < l.length) (h2 : i < db.sources.length),
        l[i].ID = db.sources[i].ID ∧ l[i].Name = db.sources[i].Name ∧
        l[i].FeedURL = db.sources[i].FeedURL ∧ l[i].Priority = db.sources[i].Priority ∧
        l[i].CreatedAt = db.sources[i].CreatedAt) ∧
      (db.sources = [] → l = []) := by
  cases fault with
  | some e => simp [SelectContext] at hq
  | none =>
    simp only [SelectContext, Except.ok.injEq] at hq
    refine ⟨db.sources.map dbSource.toSource, Sources_none db, hq.symm, by simp, ?_, ?_⟩
    · intro i h1 h2
      simp [dbSource.toSource]
    · intro h
      simp [h]

/-- C2, on the example store: the query succeeds and the two rows come back
in order. -/
theorem Sources_lists_rows_witness :
    SelectContext exampleDB none = Except.ok exampleDB.sources ∧
    ∃ l : List Source, Sources exampleDB none = (some l, none) ∧
      exampleDB.sources = exampleDB.sources ∧
      l.length = exampleDB.sources.length ∧
      (∀ (i : Nat) (h1 : i < l.length) (h2 : i < exampleDB.sources.length),
        l[i].ID = exampleDB.sources[i].ID ∧ l[i].Name = exampleDB.sources[i].Name ∧
        l[i].FeedURL = exampleDB.sources[i].FeedURL ∧
        l[i].Priority = exampleDB.sources[i].Priority ∧
        l[i].CreatedAt = exampleDB.sources[i].CreatedAt) ∧
      (exampleDB.sources = [] → l = []) :=
  ⟨rfl, Sources_lists_rows exampleDB none exampleDB.sources rfl⟩

/-- C3: after a call of `SetPriority(id, p)` that returns no error on a store
that has a source with that id, `SourceByID(id)` returns the source it
returned before with priority p and the same id, name, feed_url and
created_at; `SourceByID` of every other id returns what it returned before;
a row with another id is in the table after the call exactly when it was
before; and the id column of the table is unchanged. -/
theorem SetPriority_frame (db db' : DB) (fault : Option Error) (id p : Int)
    (hex : ∃ r ∈ db.sources, r.ID = id)
    (hok : SetPriority db fault id p = (none, db')) :
    (∃ s0 s : Source, SourceByID db none id = (some s0, none) ∧
        SourceByID db' none id = (some s, none) ∧
        s.Priority = p ∧ s.ID = id ∧ s.ID = s0.ID ∧ s.Name = s0.Name ∧
        s.FeedURL = s0.FeedURL ∧ s.CreatedAt = s0.CreatedAt) ∧
    (∀ j : Int, j ≠ id → SourceByID db' none j = SourceByID db none j) ∧
    (∀ r : dbSource, r.ID ≠ id → (r ∈ db'.sources ↔ r ∈ db.sources)) ∧
    db'.sources.map (fun r => r.ID) = db.sources.map (fun r => r.ID) := by
  have hdb := SetPriority_ok db db' fault id p hok
  subst hdb
  refine ⟨?_, ?_, ?_, ?_⟩
  · obtain ⟨r0, hr0, hid0⟩ := hex
    rw [SourceByID_none, SourceByID_none]
    simp only [find_after_update]
    cases hf : db.sources.find? (fun r => decide (r.ID = id)) with
    | none =>
      have := List.find?_eq_none.mp hf r0 hr0
      simp [hid0] at this
    | some r =>
      have hid : r.ID = id := by simpa using List.find?_some hf
      exact ⟨r.toSource, { r with Priority := p }.toSource, rfl,
        by simp [hid], rfl, hid, rfl, rfl, rfl, rfl⟩
  · intro j hj
    rw [SourceByID_none, SourceByID_none]
    simp only [find_after_update]
    cases hf : db.sources.find? (fun r => decide (r.ID = j)) with
    | none => rfl
    | some r =>
      have hid : r.ID = j := by simpa using List.find?_some hf
      have hne : r.ID ≠ id := fun h => hj (hid.symm.trans h)
      simp [hne]
  · intro r hr
    simp only [List.mem_map]
    constructor
    · rintro ⟨x, hx, hxr⟩
      by_cases hxid : x.ID = id
      · rw [if_pos hxid] at hxr
        exact absurd (by rw [← hxr]; exact hxid) hr
      · rw [if_neg hxid] at hxr
        exact hxr ▸ hx
    · intro hmem
      exact ⟨r, hmem, by rw [if_neg hr]⟩
  · exact ids_after_update db.sources id p

/-- C3, on the example store: source 2 gets the priority 9. -/
theorem SetPriority_frame_witness :
    (∃ r ∈ exampleDB.sources, r.ID = 2) ∧
    SetPriority exampleDB none 2 9 = (none, exampleAfterSetPriority) ∧
    ((∃ s0 s : Source, SourceByID exampleDB none 2 = (some s0, none) ∧
        SourceByID exampleAfterSetPriority none 2 = (some s, none) ∧
        s.Priority = 9 ∧ s.ID = 2 ∧ s.ID = s0.ID ∧ s.Name = s0.Name ∧
        s.FeedURL = s0.FeedURL ∧ s.CreatedAt = s0.CreatedAt) ∧
    (∀ j : Int, j ≠ 2 →
      SourceByID exampleAfterSetPriority none j = SourceByID exampleDB none j) ∧
    (∀ r : dbSource, r.ID ≠ 2 →
      (r ∈ exampleAfterSetPriority.sources ↔ r ∈ exampleDB.sources)) ∧
    exampleAfterSetPriority.sources.map (fun r => r.ID) =
      exampleDB.sources.map (fun r => r.ID)) :=
  ⟨by decide, rfl,
   SetPriority_frame exampleDB exampleAfterSetPriority none 2 9 (by decide) rfl⟩

/-- C4: when `Add(s)` returns no error and the id `id`, then `SourceByID(id)`
on the store after the call returns no error and a source with ID `id` and the
name, feed URL and priority of `s`; and `Sources()` after the call returns the
list it returned before the call followed by the new source, so every source
that existed before is still returned unchanged. -/
theorem Add_then_SourceByID (db db' : DB) (fault readFault : Option Error) (genID : Int)
    (now : Time) (s : Source) (id : Int)
    (hok : Add db fault readFault genID now s = ((id, none), db')) :
    (∃ got : Source, SourceByID db' none id = (some got, none) ∧ got.ID = id ∧
        got.Name = s.Name ∧ got.FeedURL = s.FeedURL ∧ got.Priority = s.Priority) ∧
    (∃ before : List Source, Sources db none = (some before, none) ∧
        Sources db' none = (some (before ++
          [{ ID := id, Name := s.Name, FeedURL := s.FeedURL, Priority := s.Priority,
             CreatedAt := now }]), none) ∧
        ∀ x ∈ before, ∃ after : List Source, Sources db' none = (some after, none) ∧
          x ∈ after) := by
  obtain ⟨hid, hfresh, hrows⟩ := Add_ok db db' fault readFault genID now s id hok
  subst hid
  have hnone : db.sources.find? (fun r => decide (r.ID = id)) = none := by
    apply List.find?_eq_none.mpr
    intro x hx
    simpa using (hasSource_false_iff db id).mp hfresh x hx
  have hlist : Sources db' none = (some (db.sources.map dbSource.toSource ++
      [{ ID := id, Name := s.Name, FeedURL := s.FeedURL, Priority := s.Priority,
         CreatedAt := now }]), none) := by
    rw [Sources_none, hrows]
    simp [dbSource.toSource]
  refine ⟨?_, db.sources.map dbSource.toSource, Sources_none db, hlist, ?_⟩
  · rw [SourceByID_none, hrows, List.find?_append, hnone]
    exact ⟨{ ID := id, Name := s.Name, FeedURL := s.FeedURL, Priority := s.Priority,
             CreatedAt := now },
      by simp [List.find?, dbSource.toSource], rfl, rfl, rfl, rfl⟩
  · intro x hx
    exact ⟨_, hlist, List.mem_append_left _ hx⟩

/-- C4, on the example store: a third source is added under the id 3. -/
theorem Add_then_SourceByID_witness :
    Add exampleDB none none 3 300 exampleSource = ((3, none), exampleAfterAdd) ∧
    ((∃ got : Source, SourceByID exampleAfterAdd none 3 = (some got, none) ∧ got.ID = 3 ∧
        got.Name = exampleSource.Name ∧ got.FeedURL = exampleSource.FeedURL ∧
        got.Priority = exampleSource.Priority) ∧
    (∃ before : List Source, Sources exampleDB none = (some before, none) ∧
        Sources exampleAfterAdd none = (some (before ++
          [{ ID := 3, Name := exampleSource.Name, FeedURL := exampleSource.FeedURL,
             Priority := exampleSource.Priority, CreatedAt := 300 }]), none) ∧
        ∀ x ∈ before, ∃ after : List Source,
          Sources exampleAfterAdd none = (some after, none) ∧ x ∈ after)) :=
  ⟨rfl, Add_then_SourceByID exampleDB exampleAfterAdd none none 3 300 exampleSource 3 rfl⟩

/-- C5: after a call of `Delete(id)` that returns no error, `SourceByID(id)`
returns a nil source and `sql.ErrNoRows`; `Sources()` returns the list it
returned before without the sources of that id, so no source of that id is in
it and every source of another id still is, with all its fields; and
`SourceByID` of every other id returns what it returned before. -/
theorem Delete_removes_exactly (db db' : DB) (fault : Option Error) (id : Int)
    (hok : Delete db fault id = (none, db')) :
    SourceByID db' none id = (none, some Error.ErrNoRows) ∧
    (∃ before after : List Source, Sources db none = (some before, none) ∧
        Sources db' none = (some after, none) ∧
        after = before.filter (fun x => !decide (x.ID = id)) ∧
        (∀ x ∈ after, x.ID ≠ id) ∧
        (∀ x ∈ before, x.ID ≠ id → x ∈ after)) ∧
    (∀ j : Int, j ≠ id → SourceByID db' none j = SourceByID db none j) := by
  have hrows := Delete_ok_sources db db' fault id hok
  refine ⟨?_, ?_, ?_⟩
  · rw [SourceByID_none, hrows, find_after_delete_same]
  · have hfilter : (db.sources.filter (fun r => !decide (r.ID = id))).map dbSource.toSource =
        (db.sources.map dbSource.toSource).filter (fun x => !decide (x.ID = id)) := by
      rw [List.filter_map]
      rfl
    refine ⟨db.sources.map dbSource.toSource, _, Sources_none db, ?_, rfl, ?_, ?_⟩
    · rw [Sources_none, hrows, hfilter]
    · intro x hx
      simpa using (List.mem_filter.mp hx).2
    · intro x hx hne
      exact List.mem_filter.mpr ⟨hx, by simp [hne]⟩
  · intro j hj
    rw [SourceByID_none, SourceByID_none, hrows, find_after_delete_other db.sources id j hj]

/-- C5, on the example store: source 1 is deleted, its article with it. -/
theorem Delete_removes_exactly_witness :
    Delete exampleDB none 1 = (none, exampleAfterDelete) ∧
    (SourceByID exampleAfterDelete none 1 = (none, some Error.ErrNoRows) ∧
    (∃ before after : List Source, Sources exampleDB none = (some before, none) ∧
        Sources exampleAfterDelete none = (some after, none) ∧
        after = before.filter (fun x => !decide (x.ID = 1)) ∧
        (∀ x ∈ after, x.ID ≠ 1) ∧
        (∀ x ∈ before, x.ID ≠ 1 → x ∈ after)) ∧
    (∀ j : Int, j ≠ 1 →
      SourceByID exampleAfterDelete none j = SourceByID exampleDB none j)) :=
  ⟨rfl, Delete_removes_exactly exampleDB exampleAfterDelete none 1 rfl⟩

/-- C6: on a store in which every article refers to an existing source,
under a schema that cascades or rejects, `Delete(id)` leaves a store in which
every article refers to an existing source; and either it returns an error
and a source of that id still exists, or no source of that id is left and no
remaining article has that source_id.  A call that returns an error changes
nothing, and after a call that returns none the source and its articles are
gone. -/
theorem Delete_keeps_articles_referenced (db : DB) (fault : Option Error) (id : Int)
    (hinv : articlesReferenced db) :
    articlesReferenced (Delete db fault id).2 ∧
    (((Delete db fault id).1 ≠ none ∧ ∃ r ∈ (Delete db fault id).2.sources, r.ID = id) ∨
      ((∀ r ∈ (Delete db fault id).2.sources, r.ID ≠ id) ∧
        ∀ a ∈ (Delete db fault id).2.articles, a.SourceID ≠ id)) ∧
    ((Delete db fault id).1 ≠ none → (Delete db fault id).2 = db) ∧
    ((Delete db fault id).1 = none →
      (∀ r ∈ (Delete db fault id).2.sources, r.ID ≠ id) ∧
        ∀ a ∈ (Delete db fault id).2.articles, a.SourceID ≠ id) := by
  have hstay : ∀ e : Error, Delete db fault id = (some e, db) →
      articlesReferenced (Delete db fault id).2 ∧
      (((Delete db fault id).1 ≠ none ∧ ∃ r ∈ (Delete db fault id).2.sources, r.ID = id) ∨
        ((∀ r ∈ (Delete db fault id).2.sources, r.ID ≠ id) ∧
          ∀ a ∈ (Delete db fault id).2.articles, a.SourceID ≠ id)) ∧
      ((Delete db fault id).1 ≠ none → (Delete db fault id).2 = db) ∧
      ((Delete db fault id).1 = none →
        (∀ r ∈ (Delete db fault id).2.sources, r.ID ≠ id) ∧
          ∀ a ∈ (Delete db fault id).2.articles, a.SourceID ≠ id) := by
    intro e he
    rw [he]
    refine ⟨hinv, ?_, fun _ => rfl, fun h => by simp at h⟩
    cases hh : hasSource db id with
    | true => exact Or.inl ⟨by simp, (hasSource_true_iff db id).mp hh⟩
    | false =>
      refine Or.inr ⟨(hasSource_false_iff db id).mp hh, ?_⟩
      exact unreferenced_articles db id hinv (by simp [hh])
  have hgone : ∀ arts : List dbArticle, (∀ a ∈ arts, a ∈ db.articles) →
      (∀ a ∈ arts, a.SourceID ≠ id) →
      Delete db fault id =
        (none, { sources := db.sources.filter (fun r => !decide (r.ID = id)),
                 articles := arts, onDelete := db.onDelete }) →
      articlesReferenced (Delete db fault id).2 ∧
      (((Delete db fault id).1 ≠ none ∧ ∃ r ∈ (Delete db fault id).2.sources, r.ID = id) ∨
        ((∀ r ∈ (Delete db fault id).2.sources, r.ID ≠ id) ∧
          ∀ a ∈ (Delete db fault id).2.articles, a.SourceID ≠ id)) ∧
      ((Delete db fault id).1 ≠ none → (Delete db fault id).2 = db) ∧
      ((Delete db fault id).1 = none →
        (∀ r ∈ (Delete db fault id).2.sources, r.ID ≠ id) ∧
          ∀ a ∈ (Delete db fault id).2.articles, a.SourceID ≠ id) := by
    intro arts hsub hne he
    rw [he]
    have hk := kept_sources_other db.sources id
    exact ⟨kept_sources_cover db id arts hinv hsub hne, Or.inr ⟨hk, hne⟩,
      fun h => absurd rfl h, fun _ => ⟨hk, hne⟩⟩
  cases fault with
  | some e => exact hstay e rfl
  | none =>
    cases href : (hasSource db id && db.articles.any (fun a => decide (a.SourceID = id))) with
    | true =>
      cases hfk : db.onDelete with
      | cascade =>
        apply hgone (db.articles.filter (fun a => !decide (a.SourceID = id)))
        · intro a ha
          exact (List.mem_filter.mp ha).1
        · intro a ha
          simpa using (List.mem_filter.mp ha).2
        · simp only [Delete, ExecContextDelete, hfk, href, if_true]
      | restrict =>
        apply hstay Error.ForeignKeyViolation
        simp only [Delete, ExecContextDelete, hfk, href, if_true]
    | false =>
      have hne := unreferenced_articles db id hinv href
      cases hfk : db.onDelete with
      | cascade =>
        apply hgone db.articles (fun a ha => ha) hne
        simp [Delete, ExecContextDelete, hfk, href]
      | restrict =>
        apply hgone db.articles (fun a ha => ha) hne
        simp [Delete, ExecContextDelete, hfk, href]

/-- C6, on the two example stores: the cascading one loses source 1 and its
article, the restricting one rejects the deletion and keeps both. -/
theorem Delete_keeps_articles_referenced_witness :
    (articlesReferenced exampleDB ∧
      Delete exampleDB none 1 = (none, exampleAfterDelete) ∧
      articlesReferenced (Delete exampleDB none 1).2) ∧
    (articlesReferenced exampleRestrictDB ∧
      Delete exampleRestrictDB none 1 = (some Error.ForeignKeyViolation, exampleRestrictDB) ∧
      articlesReferenced (Delete exampleRestrictDB none 1).2) :=
  ⟨⟨by decide, rfl, (Delete_keeps_articles_referenced exampleDB none 1 (by decide)).1⟩,
   ⟨by decide, rfl,
    (Delete_keeps_articles_referenced exampleRestrictDB none 1 (by decide)).1⟩⟩

/-- C7, as stated, fails: a fetch interval of 2^62 nanoseconds is a positive
`int64`, and twice it wraps to -2^63, which is not greater than it. -/
theorem lookback_wraps_at_two_pow_62 :
    (0 : Int) < 2 ^ 62 ∧ (2 : Int) ^ 62 ≤ maxInt64 ∧ lookback (2 ^ 62) = -2 ^ 63 ∧
      ¬ ((2 : Int) ^ 62 < lookback (2 ^ 62)) := by
  decide

/-- C7, amended: for a positive `int64` fetch interval, the lookback that
`main` passes, `2*FetchInterval` in 64-bit arithmetic, is greater than the
fetch interval exactly when the fetch interval is below 2^62 nanoseconds; below
that bound the lookback is the exact double and positive. -/
theorem lookback_exceeds_fetch_interval (fetchInterval : Int) (hpos : 0 < fetchInterval)
    (hmax : fetchInterval ≤ maxInt64) :
    (fetchInterval < lookback fetchInterval ↔ fetchInterval < 2 ^ 62) ∧
    (fetchInterval < 2 ^ 62 →
      lookback fetchInterval = 2 * fetchInterval ∧ 0 < lookback fetchInterval) := by
  simp only [lookback, wrapInt64, maxInt64] at *
  norm_num at *
  constructor
  · constructor <;> intro h <;> omega
  · intro h
    constructor <;> omega

/-- C7, amended, at a fetch interval of ten minutes. -/
theorem lookback_exceeds_fetch_interval_witness :
    (0 : Int) < 600000000000 ∧ (600000000000 : Int) ≤ maxInt64 ∧
    ((600000000000 : Int) < lookback 600000000000 ↔ (600000000000 : Int) < 2 ^ 62) ∧
    ((600000000000 : Int) < 2 ^ 62 →
      lookback 600000000000 = 2 * 600000000000 ∧ 0 < lookback 600000000000) :=
  ⟨by decide, by decide,
   lookback_exceeds_fetch_interval 600000000000 (by decide) (by decide)⟩

/-- C8: each method returns the error of its database call as it is, with a
nil list, a nil source or the id 0 beside it, and returns a nil error only
when the database call returned none; a refused statement leaves the store as
it was. -/
theorem storage_errors_surfaced (db : DB) (fault readFault : Option Error) (genID : Int)
    (now : Time) (s : Source) (id p : Int) :
    (∀ e, SelectContext db fault = Except.error e → Sources db fault = (none, some e)) ∧
    (∀ e, GetContext db fault id = Except.error e → SourceByID db fault id = (none, some e)) ∧
    (∀ e, (QueryRowxContext db fault readFault genID now s.Name s.FeedURL s.Priority).1.Err
          = some e →
        (Add db fault readFault genID now s).1 = (0, some e)) ∧
    (∀ e, (QueryRowxContext db fault readFault genID now s.Name s.FeedURL s.Priority).1.Err
          = none →
        (QueryRowxContext db fault readFault genID now s.Name s.FeedURL s.Priority).1.Scan
          = Except.error e →
        (Add db fault readFault genID now s).1 = (0, some e)) ∧
    (∀ e, (ExecContextUpdate db fault p id).1 = some e →
        (SetPriority db fault id p).1 = some e) ∧
    (∀ e, (ExecContextDelete db fault id).1 = some e → (Delete db fault id).1 = some e) ∧
    ((Sources db fault).2 = none →
        ∃ rows, SelectContext db fault = Except.ok rows ∧ (Sources db fault).1 ≠ none) ∧
    ((SourceByID db fault id).2 = none →
        ∃ r, GetContext db fault id = Except.ok r ∧ (SourceByID db fault id).1 ≠ none) ∧
    ((Add db fault readFault genID now s).1.2 = none →
        (QueryRowxContext db fault readFault genID now s.Name s.FeedURL s.Priority).1.Err
          = none ∧
        (QueryRowxContext db fault readFault genID now s.Name s.FeedURL s.Priority).1.Scan
          = Except.ok (Add db fault readFault genID now s).1.1) ∧
    ((SetPriority db fault id p).1 = none → (ExecContextUpdate db fault p id).1 = none) ∧
    ((Delete db fault id).1 = none → (ExecContextDelete db fault id).1 = none) ∧
    (∀ e, fault = some e →
        Sources db fault = (none, some e) ∧ SourceByID db fault id = (none, some e) ∧
        Add db fault readFault genID now s = ((0, some e), db) ∧
        SetPriority db fault id p = (some e, db) ∧ Delete db fault id = (some e, db)) := by
  refine ⟨?_, ?_, ?_, ?_, ?_, ?_, ?_, ?_, ?_, ?_, ?_, ?_⟩
  · intro e h
    simp only [Sources, h]
  · intro e h
    simp only [SourceByID, h]
  · intro e h
    simp only [Add, h]
  · intro e h1 h2
    simp only [Add, h1, h2]
  · intro e h
    exact h
  · intro e h
    exact h
  · intro h
    cases hq : SelectContext db fault with
    | error e => simp [Sources, hq] at h
    | ok rows => exact ⟨rows, rfl, by simp [Sources, hq]⟩
  · intro h
    cases hq : GetContext db fault id with
    | error e => simp [SourceByID, hq] at h
    | ok r => exact ⟨r, rfl, by simp [SourceByID, hq]⟩
  · intro h
    cases h1 : (QueryRowxContext db fault readFault genID now s.Name s.FeedURL
        s.Priority).1.Err with
    | some e => simp [Add, h1] at h
    | none =>
      cases h2 : (QueryRowxContext db fault readFault genID now s.Name s.FeedURL
          s.Priority).1.Scan with
      | error e => simp [Add, h1, h2] at h
      | ok v => simp [Add, h1, h2]
  · intro h
    exact h
  · intro h
    exact h
  · intro e he
    subst he
    exact ⟨rfl, rfl, rfl, rfl, rfl⟩

/-- C8, on the example store with a lost connection, and with an error met
while the inserted row's id is read. -/
theorem storage_errors_surfaced_witness :
    Sources exampleDB (some (Error.Other 1)) = (none, some (Error.Other 1)) ∧
    SourceByID exampleDB (some (Error.Other 1)) 1 = (none, some (Error.Other 1)) ∧
    (Add exampleDB none (some (Error.Other 2)) 3 300 exampleSource).1 =
      (0, some (Error.Other 2)) :=
  ⟨(storage_errors_surfaced exampleDB (some (Error.Other 1)) none 3 300 exampleSource
      1 9).1 (Error.Other 1) rfl,
   (storage_errors_surfaced exampleDB (some (Error.Other 1)) none 3 300 exampleSource
      1 9).2.1 (Error.Other 1) rfl,
   (storage_errors_surfaced exampleDB none (some (Error.Other 2)) 3 300 exampleSource
      1 9).2.2.2.1 (Error.Other 2) rfl rfl⟩

/-- C10: on an id that no source has, against a database that executes the
statement, `SetPriority` and `Delete` both return a nil error and leave the
store, and so the list that `Sources()` returns, as it was, while `SourceByID`
of that id returns `sql.ErrNoRows`. -/
theorem SetPriority_Delete_absent_id (db : DB) (id p : Int)
    (habs : ∀ r ∈ db.sources, r.ID ≠ id) :
    SetPriority db none id p = (none, db) ∧
    Delete db none id = (none, db) ∧
    Sources (SetPriority db none id p).2 none = Sources db none ∧
    Sources (Delete db none id).2 none = Sources db none ∧
    SourceByID db none id = (none, some Error.ErrNoRows) := by
  have hset : SetPriority db none id p = (none, db) := by
    simp only [SetPriority, ExecContextUpdate, update_absent db.sources id p habs]
  have hdel : Delete db none id = (none, db) := by
    have hh : hasSource db id = false := (hasSource_false_iff db id).mpr habs
    cases hfk : db.onDelete with
    | cascade =>
      simp only [Delete, ExecContextDelete, hfk, hh, Bool.false_and,
        filter_absent db.sources id habs]
      simp [← hfk]
    | restrict =>
      simp only [Delete, ExecContextDelete, hfk, hh, Bool.false_and,
        filter_absent db.sources id habs]
      simp [← hfk]
  refine ⟨hset, hdel, by rw [hset], by rw [hdel], ?_⟩
  rw [SourceByID_none]
  have : db.sources.find? (fun r => decide (r.ID = id)) = none := by
    apply List.find?_eq_none.mpr
    intro x hx
    simpa using habs x hx
  rw [this]

/-- C10, on the example store and the id 3, which no source has. -/
theorem SetPriority_Delete_absent_id_witness :
    (∀ r ∈ exampleDB.sources, r.ID ≠ 3) ∧
    (SetPriority exampleDB none 3 9 = (none, exampleDB) ∧
    Delete exampleDB none 3 = (none, exampleDB) ∧
    Sources (SetPriority exampleDB none 3 9).2 none = Sources exampleDB none ∧
    Sources (Delete exampleDB none 3).2 none = Sources exampleDB none ∧
    SourceByID exampleDB none 3 = (none, some Error.ErrNoRows)) :=
  ⟨by decide, SetPriority_Delete_absent_id exampleDB 3 9 (by decide)⟩

end NewsFeedBot
